import Mathlib

/-!
Verification development for the sidetree-style DID operation engine
(trustbloc/did-go). The definitions below are a shallow embedding of the
operation parser (operationparser package), the client create-request
builder (client package), the patch validator (patchvalidator package),
and a resolver/applier modelled from the specification where the
processor sources are not available. Theorems settle the frozen claims
about reveal matching, commitment-chain enforcement, protected-header
validation, patch validation and deactivation terminality.
-/

namespace Sidetree

/-- JWK public key as the sidetree-core jws package represents it:
the operation parser reads kty, crv, x, y and the optional nonce. -/
structure JWK where
  kty : String
  crv : String
  x : String
  y : String
  nonce : String
deriving DecidableEq, Repr

/-- Modelled from the spec: the hashing and commitment packages are not
under src/. A multihash-encoded value is kept as a String; the model
supplies the multihash computation (algorithm code and input bytes to an
encoded multihash string), the decoding of the algorithm code carried
inside an encoded multihash, and canonical JSON (JCS) serialization of a
JWK (a nil pointer canonicalizes too, hence Option). -/
structure HashModel where
  multihash : Nat → String → String
  code : String → Option Nat
  canonJWK : Option JWK → String

/-- Modelled from the spec: hashing.GetMultihashCode decodes the
algorithm code carried inside an encoded multihash. -/
def getMultihashCode (h : HashModel) (mh : String) : Except String Nat :=
  match h.code mh with
  | some c => Except.ok c
  | none => Except.error "not a valid multihash"

/-- Modelled from the spec: commitment.GetRevealValue is one hash round,
multihash(canonicalize(jwk), algo). -/
def getRevealValue (h : HashModel) (jwk : Option JWK) (algo : Nat) : String :=
  h.multihash algo (h.canonJWK jwk)

/-- Modelled from the spec: commitment.GetCommitment is two hash rounds,
multihash(multihash(canonicalize(jwk), algo), algo). -/
def getCommitment (h : HashModel) (jwk : Option JWK) (algo : Nat) : String :=
  h.multihash algo (getRevealValue h jwk algo)

/-- Modelled from the spec: commitment derived from a reveal value is the
multihash of the reveal bytes with the same algorithm the reveal carries. -/
def getCommitmentFromReveal (h : HashModel) (reveal : String) : Option String :=
  match h.code reveal with
  | some c => some (h.multihash c reveal)
  | none => none

/-- Modelled from the spec: hashing.IsValidModelMultihash succeeds iff
the multihash of the canonicalized model equals the claimed reveal value,
computed with the algorithm encoded inside the claimed reveal value. -/
def isValidModelMultihash (h : HashModel) (jwk : Option JWK) (claimed : String) :
    Except String Unit :=
  match h.code claimed with
  | none => Except.error "not a valid multihash"
  | some c =>
      if h.multihash c (h.canonJWK jwk) = claimed then Except.ok ()
      else Except.error "supplied hash doesn t match original content"

/-- Protocol parameters (api/protocol.Protocol), restricted to the fields
the embedded code reads. -/
structure Protocol where
  genesisTime : Nat
  multihashAlgorithms : List Nat
  signatureAlgorithms : List String
  keyAlgorithms : List String
  maxOperationHashLength : Nat
  maxDeltaSize : Nat
  nonceSize : Nat
deriving DecidableEq, Repr

/-- Operation type tag (api/operation.Type). -/
inductive OpType where
  | create
  | update
  | recover
  | deactivate
deriving DecidableEq, Repr

/-- Delta model (model.DeltaModel): the next update commitment and the
patches; patch contents are uninterpreted at the parsing layer. -/
structure DeltaModel where
  updateCommitment : String
  patches : List String
deriving DecidableEq, Repr

/-- Protected-header values: the Go header map stores arbitrary JSON
values, of which the parser only ever reads strings. -/
inductive HeaderValue where
  | str (s : String)
  | other
deriving DecidableEq, Repr

/-- Protected headers of a compact JWS (jws.Headers, a string-keyed map). -/
abbrev Headers := List (String × HeaderValue)

/-- Headers.Algorithm: the alg header, present only when the entry exists
and is a string. -/
def headersAlgorithm (hs : Headers) : Option String :=
  match hs.find? (fun kv => kv.1 = "alg") with
  | some (_, HeaderValue.str s) => some s
  | _ => none

/-- Modelled from the spec: internal/jws.ParseJWS (not under src/) splits
a compact JWS on the dots and base64url-decodes the segments. Its three
observable outcomes on a signed-data string are: the string is empty, the
string does not parse, or it parses to protected headers (possibly a nil
map) and a payload. The payload type is a parameter; for a given
operation it is the optional result of unmarshalling the payload bytes. -/
inductive CompactJWS (π : Type) where
  | empty
  | malformed
  | parsed (headers : Option Headers) (payload : π)
deriving DecidableEq

/-- Signed-data payload for recover (model.RecoverSignedDataModel). -/
structure RecoverSignedDataModel where
  deltaHash : String
  recoveryKey : Option JWK
  recoveryCommitment : String
  anchorOrigin : String
  anchorFrom : Int
  anchorUntil : Int
deriving DecidableEq, Repr

/-- Recover request (model.RecoverRequest); the request bytes are
modelled post-unmarshal, with the signed data kept in its parsed form. -/
structure RecoverRequest where
  didSuffix : String
  revealValue : String
  signedData : CompactJWS (Option RecoverSignedDataModel)
  delta : Option DeltaModel
deriving DecidableEq

/-- The operation parser (operationparser.Parser). It embeds the protocol
parameters and the injected anchor validators exactly as the Go struct
does; the hash model and the subroutines whose sources are not under
src/ (jws.JWK.Validate, encoder.DecodeString, and the size/patch part of
ValidateDelta) are carried as parameters. -/
structure Parser where
  protocol : Protocol
  hashModel : HashModel
  anchorOriginValidator : String → Except String Unit
  anchorTimeValidator : Int → Int → Except String Unit
  jwkValidate : JWK → Except String Unit
  decodeString : String → Except String (List Nat)
  deltaOK : DeltaModel → Bool

/-- contains from the operationparser package. -/
def containsStr (values : List String) (value : String) : Bool :=
  match values with
  | [] => false
  | v :: rest => if v = value then true else containsStr rest value

/-- Modelled from the spec: Parser.validateMultihash (source file not
under src/) accepts a value only when it is a multihash computed with one
of the protocol allowed algorithms. -/
def Parser.validateMultihash (p : Parser) (mh : String) (tag : String) :
    Except String Unit :=
  match p.hashModel.code mh with
  | none => Except.error (tag ++ " is not a valid multihash")
  | some c =>
      if c ∈ p.protocol.multihashAlgorithms then Except.ok ()
      else Except.error (tag ++ " is not computed with an allowed algorithm")

/-- Parser.validateNonce: an empty nonce is fine; otherwise the decoded
byte length must equal the configured nonce size. -/
def Parser.validateNonce (p : Parser) (nonce : String) : Except String Unit :=
  if nonce = "" then Except.ok ()
  else
    match p.decodeString nonce with
    | Except.error _ => Except.error "failed to decode nonce"
    | Except.ok bytes =>
        if bytes.length ≠ p.protocol.nonceSize then
          Except.error "nonce size doesn t match configured nonce size"
        else Except.ok ()

/-- Parser.validateSigningKey: the key must be present, pass JWK
validation, use an allowed key algorithm, and carry a valid nonce. -/
def Parser.validateSigningKey (p : Parser) (key : Option JWK) : Except String Unit :=
  match key with
  | none => Except.error "missing signing key"
  | some k =>
      match p.jwkValidate k with
      | Except.error e => Except.error ("signing key validation failed: " ++ e)
      | Except.ok _ =>
          if containsStr p.protocol.keyAlgorithms k.crv = false then
            Except.error "key algorithm is not in the allowed list"
          else
            match p.validateNonce k.nonce with
            | Except.error e => Except.error ("validate signing key nonce: " ++ e)
            | Except.ok _ => Except.ok ()

/-- Parser.validateCommitment: the commitment of the supplied key,
computed with the algorithm carried inside the next commitment, must not
equal the next commitment. -/
def Parser.validateCommitment (p : Parser) (jwk : Option JWK) (nextCommitment : String) :
    Except String Unit :=
  match getMultihashCode p.hashModel nextCommitment with
  | Except.error e => Except.error e
  | Except.ok c =>
      if getCommitment p.hashModel jwk c = nextCommitment then
        Except.error "re-using public keys for commitment is not allowed"
      else Except.ok ()

/-- Parser.validateProtectedHeaders: headers must be present, alg must be
present, non-empty and in the allowed list, and no member beyond alg and
kid may appear. -/
def Parser.validateProtectedHeaders (p : Parser) (headers : Option Headers)
    (allowedAlgorithms : List String) : Except String Unit :=
  match headers with
  | none => Except.error "missing protected headers"
  | some hs =>
      match headersAlgorithm hs with
      | none => Except.error "algorithm must be present in the protected header"
      | some alg =>
          if alg = "" then
            Except.error "algorithm cannot be empty in the protected header"
          else if hs.all (fun kv => kv.1 = "alg" ∨ kv.1 = "kid") = false then
            Except.error "invalid protected header"
          else if containsStr allowedAlgorithms alg = false then
            Except.error "algorithm is not in the allowed list"
          else Except.ok ()

/-- Parser.parseSignedData: an empty compact JWS and a malformed compact
JWS are errors; otherwise the protected headers are validated against the
protocol signature algorithms. -/
def Parser.parseSignedData (p : Parser) {π : Type} (compactJWS : CompactJWS π) :
    Except String (Option Headers × π) :=
  match compactJWS with
  | CompactJWS.empty => Except.error "missing signed data"
  | CompactJWS.malformed => Except.error "failed to parse signed data"
  | CompactJWS.parsed headers payload =>
      match p.validateProtectedHeaders headers p.protocol.signatureAlgorithms with
      | Except.error e => Except.error ("failed to parse signed data: " ++ e)
      | Except.ok _ => Except.ok (headers, payload)

/-- Parser.validateSignedDataForRecovery. -/
def Parser.validateSignedDataForRecovery (p : Parser) (signedData : RecoverSignedDataModel) :
    Except String Unit :=
  match p.validateSigningKey signedData.recoveryKey with
  | Except.error e => Except.error e
  | Except.ok _ =>
  match p.validateMultihash signedData.recoveryCommitment "recovery commitment" with
  | Except.error e => Except.error e
  | Except.ok _ =>
  match p.validateMultihash signedData.deltaHash "delta hash" with
  | Except.error e => Except.error e
  | Except.ok _ => p.validateCommitment signedData.recoveryKey signedData.recoveryCommitment

/-- Parser.ParseSignedDataForRecover: parse the compact JWS, unmarshal
the payload into the recover signed-data model, validate it. -/
def Parser.parseSignedDataForRecover (p : Parser)
    (compactJWS : CompactJWS (Option RecoverSignedDataModel)) :
    Except String RecoverSignedDataModel :=
  match p.parseSignedData compactJWS with
  | Except.error e => Except.error e
  | Except.ok (_, payload) =>
      match payload with
      | none => Except.error "failed to unmarshal signed data model for recover"
      | some schema =>
          match p.validateSignedDataForRecovery schema with
          | Except.error e => Except.error ("validate signed data for recovery: " ++ e)
          | Except.ok _ => Except.ok schema

/-- Parser.validateRecoverRequest: did suffix and signed data must be
present and the reveal value must be a valid multihash. -/
def Parser.validateRecoverRequest (p : Parser) (req : RecoverRequest) :
    Except String Unit :=
  if req.didSuffix = "" then Except.error "missing did suffix"
  else
    match req.signedData with
    | CompactJWS.empty => Except.error "missing signed data"
    | _ => p.validateMultihash req.revealValue "reveal value"

/-- Parser.parseRecoverRequest; the JSON unmarshal of the request bytes
is modelled by the optional structured request (none meaning the bytes do
not unmarshal). -/
def Parser.parseRecoverRequest (p : Parser) (payload : Option RecoverRequest) :
    Except String RecoverRequest :=
  match payload with
  | none => Except.error "failed to unmarshal recover request"
  | some schema =>
      match p.validateRecoverRequest schema with
      | Except.error e => Except.error e
      | Except.ok _ => Except.ok schema

/-- Modelled from the spec: the wrap-around behaviour of a 64-bit signed
integer, for the one place the parser adds a size to a timestamp. -/
def wrapInt64 (x : Int) : Int :=
  (x + 2 ^ 63) % 2 ^ 64 - 2 ^ 63

/-- Go conversion int64(uint): keep the low 64 bits, signed. -/
def int64OfNat (n : Nat) : Int :=
  wrapInt64 (n : Int)

/-- Parser.getAnchorUntil: when anchor-from is set and anchor-until is
not, the bound is anchor-from plus the protocol max delta size; otherwise
anchor-until is passed through. -/
def Parser.getAnchorUntil (p : Parser) (anchorFrom anchorUntil : Int) : Int :=
  if anchorFrom ≠ 0 ∧ anchorUntil = 0 then
    wrapInt64 (anchorFrom + int64OfNat p.protocol.maxDeltaSize)
  else anchorUntil

/-- Modelled from the spec: Parser.ValidateDelta (source file not under
src/) requires the delta to be present, its update commitment to be a
valid multihash for the protocol, and the size and patch checks to pass;
the latter are abstracted by the deltaOK parameter of the parser. -/
def Parser.validateDelta (p : Parser) (delta : Option DeltaModel) : Except String Unit :=
  match delta with
  | none => Except.error "missing delta"
  | some d =>
      match p.validateMultihash d.updateCommitment "update commitment" with
      | Except.error e => Except.error e
      | Except.ok _ =>
          if p.deltaOK d then Except.ok () else Except.error "invalid delta"

/-- Parsed operation (model.Operation), restricted to the fields the
recover parser populates. -/
structure Operation where
  opType : OpType
  uniqueSuffix : String
  delta : Option DeltaModel
  signedData : CompactJWS (Option RecoverSignedDataModel)
  revealValue : String
  anchorOrigin : String
deriving DecidableEq

/-- Parser.ParseRecoverOperation: parse the request, parse and validate
the signed data; in non-batch mode additionally validate anchor origin,
anchor time bounds and the delta, and reject a delta update commitment
equal to the signed-data recovery commitment; in both modes the multihash
of the canonicalized recovery key must match the reveal value. -/
def Parser.parseRecoverOperation (p : Parser) (request : Option RecoverRequest)
    (batch : Bool) : Except String Operation :=
  match p.parseRecoverRequest request with
  | Except.error e => Except.error e
  | Except.ok schema =>
  match p.parseSignedDataForRecover schema.signedData with
  | Except.error e => Except.error e
  | Except.ok signedData =>
  match
    (if batch = false then
      match p.anchorOriginValidator signedData.anchorOrigin with
      | Except.error e => Except.error e
      | Except.ok _ =>
      match
        p.anchorTimeValidator signedData.anchorFrom
          (p.getAnchorUntil signedData.anchorFrom signedData.anchorUntil)
      with
      | Except.error e => Except.error e
      | Except.ok _ =>
      match p.validateDelta schema.delta with
      | Except.error e => Except.error e
      | Except.ok _ =>
      match schema.delta with
      | none => Except.error "missing delta"
      | some d =>
          if d.updateCommitment = signedData.recoveryCommitment then
            Except.error
              "recovery and update commitments cannot be equal, re-using public keys is not allowed"
          else Except.ok ()
    else Except.ok ())
  with
  | Except.error e => Except.error e
  | Except.ok _ =>
  match isValidModelMultihash p.hashModel signedData.recoveryKey schema.revealValue with
  | Except.error e =>
      Except.error ("canonicalized recovery public key hash doesn t match reveal value: " ++ e)
  | Except.ok _ =>
      Except.ok
        { opType := OpType.recover
          uniqueSuffix := schema.didSuffix
          delta := schema.delta
          signedData := schema.signedData
          revealValue := schema.revealValue
          anchorOrigin := signedData.anchorOrigin }

/-- Create request info (client.CreateRequestInfo). -/
structure CreateRequestInfo where
  opaqueDocument : String
  patches : List String
  recoveryCommitment : String
  updateCommitment : String
  anchorOrigin : String
  infoType : String
  multihashCode : Nat
deriving DecidableEq, Repr

/-- Suffix data model (model.SuffixDataModel). -/
structure SuffixDataModel where
  deltaHash : String
  recoveryCommitment : String
  anchorOrigin : String
  suffixType : String
deriving DecidableEq, Repr

/-- Create request (model.CreateRequest). -/
structure CreateRequest where
  operation : OpType
  suffixData : SuffixDataModel
  delta : DeltaModel
deriving DecidableEq, Repr

/-- Environment of the client create-request builder: the external
multiformats code registry, the patch package conversion of an opaque
document, canonical JSON of a delta, and the hash model. These live in
packages not under src/. -/
structure ClientEnv where
  hm : HashModel
  validCode : Nat → Bool
  patchesFromDocument : String → Except String (List String)
  canonDelta : DeltaModel → String

/-- Modelled from the spec: hashing.IsComputedUsingMultihashAlgorithms
(source not under src/) holds when the value is a multihash whose
algorithm code is among the given codes. -/
def isComputedUsingMultihashAlgorithms (h : HashModel) (mh : String) (codes : List Nat) :
    Bool :=
  match h.code mh with
  | some c => decide (c ∈ codes)
  | none => false

/-- client.validateCreateRequest. -/
def validateCreateRequest (env : ClientEnv) (info : CreateRequestInfo) :
    Except String Unit :=
  if info.opaqueDocument = "" ∧ info.patches = [] then
    Except.error "either opaque document or patches have to be supplied"
  else if info.opaqueDocument ≠ "" ∧ info.patches ≠ [] then
    Except.error "cannot provide both opaque document and patches"
  else if env.validCode info.multihashCode = false then
    Except.error "multihash not supported"
  else if
    isComputedUsingMultihashAlgorithms env.hm info.recoveryCommitment
      [info.multihashCode] = false
  then
    Except.error "next recovery commitment is not computed with the specified hash algorithm"
  else if
    isComputedUsingMultihashAlgorithms env.hm info.updateCommitment
      [info.multihashCode] = false
  then
    Except.error "next update commitment is not computed with the specified hash algorithm"
  else if info.recoveryCommitment = info.updateCommitment then
    Except.error "recovery and update commitments cannot be equal, re-using public keys is not allowed"
  else Except.ok ()

/-- client.getPatches. -/
def getPatches (env : ClientEnv) (opaqueDoc : String) (patches : List String) :
    Except String (List String) :=
  if opaqueDoc ≠ "" then env.patchesFromDocument opaqueDoc else Except.ok patches

/-- client.NewCreateRequest: validate the info, assemble delta and suffix
data, and return the canonicalized request (the request value stands for
its canonical bytes). -/
def newCreateRequest (env : ClientEnv) (info : CreateRequestInfo) :
    Except String CreateRequest :=
  match validateCreateRequest env info with
  | Except.error e => Except.error e
  | Except.ok _ =>
  match getPatches env info.opaqueDocument info.patches with
  | Except.error e => Except.error e
  | Except.ok patches =>
      let delta : DeltaModel := { updateCommitment := info.updateCommitment, patches := patches }
      let deltaHash := env.hm.multihash info.multihashCode (env.canonDelta delta)
      Except.ok
        { operation := OpType.create
          suffixData :=
            { deltaHash := deltaHash
              recoveryCommitment := info.recoveryCommitment
              anchorOrigin := info.anchorOrigin
              suffixType := info.infoType }
          delta := delta }

/-! Patch validator (patchvalidator/document.go). Public keys and
services are string-keyed JSON maps in the source; they are modelled as
association lists of document values. -/

/-- JWK inside a document public key (document.JWK). -/
structure DocJWK where
  kty : String
  crv : String
  x : String
  y : String
deriving DecidableEq, Repr

/-- A JSON value stored in a public-key map, restricted to the shapes the
validator reads. -/
inductive DocValue where
  | str (s : String)
  | strList (l : List String)
  | jwkVal (j : DocJWK)
  | other
deriving DecidableEq, Repr

/-- document.PublicKey: a string-keyed map. -/
abbrev PublicKey := List (String × DocValue)

/-- Map lookup on a public key. -/
def pkEntry (pk : PublicKey) (key : String) : Option DocValue :=
  (pk.find? (fun kv => kv.1 = key)).map (fun kv => kv.2)

/-- document.PublicKey.ID. -/
def pkID (pk : PublicKey) : String :=
  match pkEntry pk "id" with
  | some (DocValue.str s) => s
  | _ => ""

/-- document.PublicKey.Type. -/
def pkType (pk : PublicKey) : String :=
  match pkEntry pk "type" with
  | some (DocValue.str s) => s
  | _ => ""

/-- document.PublicKey.Purpose. -/
def pkPurpose (pk : PublicKey) : List String :=
  match pkEntry pk "purposes" with
  | some (DocValue.strList l) => l
  | _ => []

/-- document.PublicKey.PublicKeyJwk. -/
def pkJwk (pk : PublicKey) : Option DocJWK :=
  match pkEntry pk "publicKeyJwk" with
  | some (DocValue.jwkVal j) => some j
  | _ => none

/-- document.PublicKey.PublicKeyBase58. -/
def pkBase58 (pk : PublicKey) : String :=
  match pkEntry pk "publicKeyBase58" with
  | some (DocValue.str s) => s
  | _ => ""

/-- The five allowed key purposes. -/
def allowedPurposes : List String :=
  ["authentication", "assertionMethod", "keyAgreement", "capabilityDelegation",
   "capabilityInvocation"]

/-- allowedKeyTypesGeneral. -/
def allowedKeyTypesGeneral : List String :=
  ["Bls12381G2Key2020", "JsonWebKey2020", "EcdsaSecp256k1VerificationKey2019",
   "Ed25519VerificationKey2018", "Ed25519VerificationKey2020",
   "X25519KeyAgreementKey2019"]

/-- allowedKeyTypesVerification. -/
def allowedKeyTypesVerification : List String :=
  ["Bls12381G2Key2020", "JsonWebKey2020", "EcdsaSecp256k1VerificationKey2019",
   "Ed25519VerificationKey2018", "Ed25519VerificationKey2020"]

/-- allowedKeyTypesAgreement. -/
def allowedKeyTypesAgreement : List String :=
  ["Bls12381G2Key2020", "JsonWebKey2020", "EcdsaSecp256k1VerificationKey2019",
   "X25519KeyAgreementKey2019"]

/-- allowedKeyTypes: the fixed purpose-to-key-type allow-list. -/
def allowedKeyTypes (purpose : String) : Option (List String) :=
  if purpose = "authentication" then some allowedKeyTypesVerification
  else if purpose = "assertionMethod" then some allowedKeyTypesVerification
  else if purpose = "keyAgreement" then some allowedKeyTypesAgreement
  else if purpose = "capabilityDelegation" then some allowedKeyTypesVerification
  else if purpose = "capabilityInvocation" then some allowedKeyTypesVerification
  else none

/-- A character the id regular expression accepts. -/
def isIDChar (c : Char) : Bool :=
  (c ≥ 'A' ∧ c ≤ 'Z') ∨ (c ≥ 'a' ∧ c ≤ 'z') ∨ (c ≥ '0' ∧ c ≤ '9') ∨ c = '_' ∨ c = '-'

/-- The id pattern: one or more characters, all from the class. -/
def asciiRegexMatch (s : String) : Bool :=
  s.data ≠ [] ∧ s.data.all isIDChar

/-- validateID: at most 50 bytes and matching the id pattern. -/
def validateID (id : String) : Except String Unit :=
  if id.utf8ByteSize > 50 then Except.error "id exceeds maximum length: 50"
  else if asciiRegexMatch id = false then Except.error "id contains invalid characters"
  else Except.ok ()

/-- The allowed public-key map members. -/
def allowedPKKeys : List String :=
  ["type", "id", "purposes", "publicKeyJwk", "publicKeyBase58"]

/-- validatePublicKeyProperties: type and id required, exactly one of
publicKeyJwk and publicKeyBase58, no other members. -/
def validatePublicKeyProperties (pk : PublicKey) : Except String Unit :=
  if (pkEntry pk "type").isNone then Except.error "key type is required for public key"
  else if (pkEntry pk "id").isNone then Except.error "key id is required for public key"
  else if
    ¬(((pkEntry pk "publicKeyJwk").isSome ∧ (pkEntry pk "publicKeyBase58").isNone) ∨
      ((pkEntry pk "publicKeyJwk").isNone ∧ (pkEntry pk "publicKeyBase58").isSome))
  then Except.error "exactly one key required of publicKeyJwk and publicKeyBase58"
  else if pk.all (fun kv => kv.1 ∈ allowedPKKeys) = false then
    Except.error "key is not allowed for public key"
  else Except.ok ()

/-- validateKeyPurposes: a present purposes member must be non-empty,
there are at most five purposes, and every purpose is allowed. -/
def validateKeyPurposes (pk : PublicKey) : Except String Unit :=
  if (pkEntry pk "purposes").isSome ∧ (pkPurpose pk).length = 0 then
    Except.error "if purposes key is specified, it must contain at least one purpose"
  else if (pkPurpose pk).length > allowedPurposes.length then
    Except.error "public key purpose exceeds maximum length: 5"
  else if (pkPurpose pk).all (fun purpose => purpose ∈ allowedPurposes) = false then
    Except.error "invalid purpose"
  else Except.ok ()

/-- validateKeyTypePurpose: a key with no purposes must have a general
key type; the key type must be allowed for each listed purpose. -/
def validateKeyTypePurpose (pk : PublicKey) : Bool :=
  (if (pkPurpose pk).length = 0 then decide (pkType pk ∈ allowedKeyTypesGeneral) else true) &&
  (pkPurpose pk).all (fun purpose =>
    match allowedKeyTypes purpose with
    | some allowed => decide (pkType pk ∈ allowed)
    | none => false)

/-- Environment of the patch validator: document.JWK.Validate and the Go
standard library URI parser live outside src/. -/
structure PatchEnv where
  docJwkValidate : DocJWK → Except String Unit
  parseURIOk : String → Bool

/-- validateJWK: the key must be in JWK form and pass JWK validation. -/
def validateJWK (env : PatchEnv) (jwk : Option DocJWK) : Except String Unit :=
  match jwk with
  | none => Except.error "key has to be in JWK format"
  | some j => env.docJwkValidate j

/-- validatePublicKeys loop body, carrying the set of ids seen so far. -/
def validatePublicKeysLoop (env : PatchEnv) (ids : List String) :
    List PublicKey → Except String Unit
  | [] => Except.ok ()
  | pk :: rest =>
      match validatePublicKeyProperties pk with
      | Except.error e => Except.error e
      | Except.ok _ =>
      match validateID (pkID pk) with
      | Except.error e => Except.error ("public key: " ++ e)
      | Except.ok _ =>
      if pkID pk ∈ ids then Except.error ("duplicate public key id: " ++ pkID pk)
      else
      match validateKeyPurposes pk with
      | Except.error e => Except.error e
      | Except.ok _ =>
      if validateKeyTypePurpose pk = false then
        Except.error ("invalid key type: " ++ pkType pk)
      else
        match validateJWK env (pkJwk pk) with
        | Except.error e =>
            if pkBase58 pk = "" ∨ pkType pk = "JsonWebKey2020" then Except.error e
            else validatePublicKeysLoop env (pkID pk :: ids) rest
        | Except.ok _ => validatePublicKeysLoop env (pkID pk :: ids) rest

/-- validatePublicKeys. -/
def validatePublicKeys (env : PatchEnv) (pubKeys : List PublicKey) : Except String Unit :=
  validatePublicKeysLoop env [] pubKeys

/-- A dynamic value inside a service endpoint list: the validator only
distinguishes strings from everything else. -/
inductive DynVal where
  | str (s : String)
  | nonStr
deriving DecidableEq, Repr

/-- The dynamic service endpoint value, by the shapes the type switch in
validateServiceEndpoint distinguishes: nil, string, list of strings, list
of dynamic values, or any other value. -/
inductive Endpoint where
  | nil
  | str (s : String)
  | strList (l : List String)
  | dynList (l : List DynVal)
  | otherVal
deriving DecidableEq, Repr

/-- document.Service, restricted to the fields validateService reads. -/
structure Service where
  id : String
  svcType : String
  serviceEndpoint : Endpoint
deriving DecidableEq, Repr

/-- validateURI: non-empty and parsed by the URI parser. -/
def validateURI (env : PatchEnv) (uri : String) : Except String Unit :=
  if uri = "" then Except.error "service endpoint URI is empty"
  else if env.parseURIOk uri = false then
    Except.error "service endpoint is not a valid URI"
  else Except.ok ()

/-- validateURIs: every URI in the list must validate. -/
def validateURIs (env : PatchEnv) : List String → Except String Unit
  | [] => Except.ok ()
  | uri :: rest =>
      match validateURI env uri with
      | Except.error e => Except.error e
      | Except.ok _ => validateURIs env rest

/-- validateServiceEndpointObjects: the first string in the list, when
one exists, is validated as a URI; nothing else is inspected. -/
def validateServiceEndpointObjects (env : PatchEnv) : List DynVal → Except String Unit
  | [] => Except.ok ()
  | DynVal.str uri :: _ => validateURI env uri
  | DynVal.nonStr :: rest => validateServiceEndpointObjects env rest

/-- validateServiceEndpoint: a type switch on the endpoint shape; a shape
that is none of nil, string, list of strings or list of dynamic values is
accepted without further checks. -/
def validateServiceEndpoint (env : PatchEnv) (serviceEndpoint : Endpoint) :
    Except String Unit :=
  match serviceEndpoint with
  | Endpoint.nil => Except.error "service endpoint is missing"
  | Endpoint.str uri => validateURI env uri
  | Endpoint.strList uris => validateURIs env uris
  | Endpoint.dynList objs => validateServiceEndpointObjects env objs
  | Endpoint.otherVal => Except.ok ()

/-- validateServiceID: non-empty, then the common id rules. -/
def validateServiceID (id : String) : Except String Unit :=
  if id = "" then Except.error "service id is missing"
  else
    match validateID id with
    | Except.error e => Except.error ("service: " ++ e)
    | Except.ok _ => Except.ok ()

/-- validateServiceType: non-empty and at most 30 bytes. -/
def validateServiceType (serviceType : String) : Except String Unit :=
  if serviceType = "" then Except.error "service type is missing"
  else if serviceType.utf8ByteSize > 30 then
    Except.error "service type exceeds maximum length: 30"
  else Except.ok ()

/-- validateService: id, type, then endpoint. -/
def validateService (env : PatchEnv) (service : Service) : Except String Unit :=
  match validateServiceID service.id with
  | Except.error e => Except.error e
  | Except.ok _ =>
  match validateServiceType service.svcType with
  | Except.error e => Except.error e
  | Except.ok _ => validateServiceEndpoint env service.serviceEndpoint

/-- validateServices loop body, carrying the ids seen so far. -/
def validateServicesLoop (env : PatchEnv) (ids : List String) :
    List Service → Except String Unit
  | [] => Except.ok ()
  | service :: rest =>
      match validateService env service with
      | Except.error e => Except.error e
      | Except.ok _ =>
          if service.id ∈ ids then Except.error ("duplicate service id: " ++ service.id)
          else validateServicesLoop env (service.id :: ids) rest

/-- validateServices. -/
def validateServices (env : PatchEnv) (services : List Service) : Except String Unit :=
  validateServicesLoop env [] services

/-! Resolver and applier. The processor and operationapplier sources are
not under src/ (only their tests are), so the definitions below are
modelled from the specification, sections 4.E, 4.F and 4.G. -/

/-- The document under construction, a string-keyed map. -/
abbrev Doc := List (String × String)

/-- Modelled from the spec: the resolution model accumulated while
applying operations (section 4.F). -/
structure ResolutionModel where
  doc : Doc
  updateCommitment : String
  recoveryCommitment : String
  deactivated : Bool
deriving DecidableEq

/-- Modelled from the spec: an anchored operation as the applier consumes
it, tagged by type, carrying the signed-data fields the checks read and
the transaction time assigned by the ordering authority. -/
inductive AnchoredOp where
  | create (suffixData : SuffixDataModel) (delta : DeltaModel) (txnTime : Nat)
  | update (revealValue : String) (updateKey : Option JWK) (deltaHash : String)
      (delta : DeltaModel) (txnTime : Nat)
  | recover (revealValue : String) (recoveryKey : Option JWK)
      (newRecoveryCommitment : String) (deltaHash : String) (delta : DeltaModel)
      (txnTime : Nat)
  | deactivate (revealValue : String) (recoveryKey : Option JWK) (txnTime : Nat)
deriving DecidableEq

/-- The transaction time of an anchored operation. -/
def AnchoredOp.txnTime : AnchoredOp → Nat
  | AnchoredOp.create _ _ t => t
  | AnchoredOp.update _ _ _ _ t => t
  | AnchoredOp.recover _ _ _ _ _ t => t
  | AnchoredOp.deactivate _ _ t => t

/-- Modelled from the spec: the protocol registry is a list of protocol
records sorted by genesis time ascending, and get(t) returns the last
record whose genesis time is at most t, or nothing if none is. -/
def registryGet (registry : List Protocol) (t : Nat) : Option Protocol :=
  match registry with
  | [] => none
  | p :: rest =>
      if p.genesisTime ≤ t then
        match registryGet rest t with
        | some q => some q
        | none => some p
      else none

/-- Modelled from the spec: the applier environment. Patch application
and delta canonicalization are abstract parameters; the registry supplies
the protocol parameters in force at each transaction time. -/
structure Applier where
  hm : HashModel
  registry : List Protocol
  applyPatches : Doc → List String → Option Doc
  canonDelta : DeltaModel → String

/-- Modelled from the spec: the checks an update operation must pass
(section 4.F step 5) under the protocol parameters p in force at the
transaction time of the operation: the reveal value is a multihash of an
algorithm p allows and re-hashes to the stored update commitment, the
commitment of the update key equals the stored update commitment, the
delta hash is a multihash of an allowed algorithm matching the
canonicalized delta, and the next update commitment differs from the
stored one. -/
def Applier.validUpdate (a : Applier) (p : Protocol) (m : ResolutionModel)
    (rv : String) (key : Option JWK) (dh : String) (d : DeltaModel) : Bool :=
  match a.hm.code rv, a.hm.code dh with
  | some c, some cd =>
      decide (c ∈ p.multihashAlgorithms) &&
      decide (a.hm.multihash c rv = m.updateCommitment) &&
      decide (getCommitment a.hm key c = m.updateCommitment) &&
      decide (cd ∈ p.multihashAlgorithms) &&
      decide (a.hm.multihash cd (a.canonDelta d) = dh) &&
      decide (d.updateCommitment ≠ m.updateCommitment)
  | _, _ => false

/-- Modelled from the spec: the recovery-commitment reveal checks shared
by recover and deactivate (section 4.F step 4): the reveal value is a
multihash of an allowed algorithm and re-hashes to the stored recovery
commitment, and the commitment of the signed-data key equals the stored
recovery commitment. -/
def Applier.validRecoveryReveal (a : Applier) (p : Protocol) (m : ResolutionModel)
    (rv : String) (key : Option JWK) : Bool :=
  match a.hm.code rv with
  | some c =>
      decide (c ∈ p.multihashAlgorithms) &&
      decide (a.hm.multihash c rv = m.recoveryCommitment) &&
      decide (getCommitment a.hm key c = m.recoveryCommitment)
  | none => false

/-- Modelled from the spec: the delta checks of a recover operation: the
delta hash is a multihash of an allowed algorithm matching the
canonicalized delta. -/
def Applier.validRecoverDelta (a : Applier) (p : Protocol) (dh : String)
    (d : DeltaModel) : Bool :=
  match a.hm.code dh with
  | some cd =>
      decide (cd ∈ p.multihashAlgorithms) &&
      decide (a.hm.multihash cd (a.canonDelta d) = dh)
  | none => false

/-- Modelled from the spec: applying one anchored operation to the
resolution model (section 4.F). Nothing applies after a deactivation; an
operation is validated under the protocol record in force at its own
transaction time; a failing operation is discarded leaving the model
unchanged; a create is not applied past the initial model. A successful
update rewrites the document and the update commitment; a successful
recover rebuilds the document from a fresh one and rewrites both
commitments, advancing the commitments even when patch application fails;
a successful deactivate marks the model deactivated and clears both
commitments. -/
def Applier.applyOperation (a : Applier) (m : ResolutionModel) (op : AnchoredOp) :
    ResolutionModel :=
  if m.deactivated then m
  else
    match registryGet a.registry op.txnTime with
    | none => m
    | some p =>
        match op with
        | AnchoredOp.create _ _ _ => m
        | AnchoredOp.update rv key dh d _ =>
            if a.validUpdate p m rv key dh d then
              match a.applyPatches m.doc d.patches with
              | some doc2 =>
                  { m with doc := doc2, updateCommitment := d.updateCommitment }
              | none => m
            else m
        | AnchoredOp.recover rv key newRC dh d _ =>
            if a.validRecoveryReveal p m rv key && a.validRecoverDelta p dh d then
              match a.applyPatches [] d.patches with
              | some doc2 =>
                  { m with doc := doc2, updateCommitment := d.updateCommitment,
                           recoveryCommitment := newRC }
              | none =>
                  { m with updateCommitment := d.updateCommitment,
                           recoveryCommitment := newRC }
            else m
        | AnchoredOp.deactivate rv key _ =>
            if a.validRecoveryReveal p m rv key then
              { m with deactivated := true, updateCommitment := "",
                       recoveryCommitment := "" }
            else m

/-- Modelled from the spec: resolution applies the ordered operations in
sequence, starting from the model the create operation initialized. -/
def Applier.resolveOps (a : Applier) (m : ResolutionModel) (ops : List AnchoredOp) :
    ResolutionModel :=
  ops.foldl a.applyOperation m

/-! Concrete instances used to evaluate the embedded functions at
explicit inputs. -/

/-- The decimal value of one digit character. -/
def charDigit (c : Char) : Option Nat :=
  if c = '0' then some 0
  else if c = '1' then some 1
  else if c = '2' then some 2
  else if c = '3' then some 3
  else if c = '4' then some 4
  else if c = '5' then some 5
  else if c = '6' then some 6
  else if c = '7' then some 7
  else if c = '8' then some 8
  else if c = '9' then some 9
  else none

/-- Reads the decimal algorithm code before the first colon. -/
def codeAux : List Char → Nat → Bool → Option Nat
  | [], _, _ => none
  | c :: rest, acc, seen =>
      if c = ':' then (if seen then some acc else none)
      else
        match charDigit c with
        | some d => codeAux rest (acc * 10 + d) true
        | none => none

/-- A concrete hash model: the multihash string is the algorithm code
followed by a colon and the input, and the code is decoded from the
digits before the colon. -/
def hm0 : HashModel :=
  { multihash := fun c s => toString c ++ ":" ++ s
    code := fun s => codeAux s.data 0 false
    canonJWK := fun jwk =>
      match jwk with
      | some k => "K|" ++ k.kty ++ "|" ++ k.crv ++ "|" ++ k.x ++ "|" ++ k.y ++ "|" ++ k.nonce
      | none => "null" }

/-- A protocol record effective from genesis time 0, allowing algorithm
code 18. -/
def prot0 : Protocol :=
  { genesisTime := 0
    multihashAlgorithms := [18]
    signatureAlgorithms := ["ES256"]
    keyAlgorithms := ["P-256"]
    maxOperationHashLength := 100
    maxDeltaSize := 1000
    nonceSize := 16 }

/-- A protocol record effective from genesis time 100, allowing
algorithm codes 19 and 18. -/
def prot1 : Protocol :=
  { genesisTime := 100
    multihashAlgorithms := [19, 18]
    signatureAlgorithms := ["ES256"]
    keyAlgorithms := ["P-256"]
    maxOperationHashLength := 100
    maxDeltaSize := 1000
    nonceSize := 16 }

/-- A concrete parser over prot0 with accepting injected validators. -/
def pC : Parser :=
  { protocol := prot0
    hashModel := hm0
    anchorOriginValidator := fun _ => Except.ok ()
    anchorTimeValidator := fun _ _ => Except.ok ()
    jwkValidate := fun _ => Except.ok ()
    decodeString := fun _ => Except.ok []
    deltaOK := fun _ => true }

/-- A concrete signing key. -/
def k0 : JWK :=
  { kty := "EC", crv := "P-256", x := "x0", y := "y0", nonce := "" }

/-- The reveal value of k0 under algorithm 18. -/
def rv0 : String := getRevealValue hm0 (some k0) 18

/-- A fresh next recovery commitment, distinct from the commitment of k0. -/
def rc0 : String := "18:newrc"

/-- A concrete recover signed-data payload. -/
def sd0 : RecoverSignedDataModel :=
  { deltaHash := "18:dh"
    recoveryKey := some k0
    recoveryCommitment := rc0
    anchorOrigin := ""
    anchorFrom := 0
    anchorUntil := 0 }

/-- Concrete protected headers carrying only alg. -/
def hdrs0 : Headers := [("alg", HeaderValue.str "ES256")]

/-- A concrete delta. -/
def delta0 : DeltaModel := { updateCommitment := "18:uc", patches := [] }

/-- A concrete well-formed recover request. -/
def req0 : RecoverRequest :=
  { didSuffix := "abc"
    revealValue := rv0
    signedData := CompactJWS.parsed (some hdrs0) (some sd0)
    delta := some delta0 }

/-- The operation req0 parses to. -/
def op0 : Operation :=
  { opType := OpType.recover
    uniqueSuffix := "abc"
    delta := some delta0
    signedData := CompactJWS.parsed (some hdrs0) (some sd0)
    revealValue := rv0
    anchorOrigin := "" }

/-- A concrete applier over the two-epoch registry. -/
def aC : Applier :=
  { hm := hm0
    registry := [prot0, prot1]
    applyPatches := fun doc _ => some doc
    canonDelta := fun d => "D|" ++ d.updateCommitment }

/-- A concrete resolution model whose recovery commitment is the
commitment of k0 under algorithm 18. -/
def m0 : ResolutionModel :=
  { doc := []
    updateCommitment := "18:u"
    recoveryCommitment := getCommitment hm0 (some k0) 18
    deactivated := false }

/-- A deactivate operation revealing k0, anchored at time 5. -/
def deactOp0 : AnchoredOp := AnchoredOp.deactivate rv0 (some k0) 5

/-- An update operation anchored at time 6, used as the appended extra
operation. -/
def updOp0 : AnchoredOp :=
  AnchoredOp.update rv0 (some k0) "18:dh" delta0 6

/-- A concrete resolution model whose update commitment is the
commitment of k0 under algorithm 18 of the first epoch. -/
def m1 : ResolutionModel :=
  { doc := [("a", "b")]
    updateCommitment := getCommitment hm0 (some k0) 18
    recoveryCommitment := "18:rc"
    deactivated := false }

/-- The delta of the cross-epoch update. -/
def d1 : DeltaModel := { updateCommitment := "18:newuc", patches := [] }

/-- The delta hash of d1 computed with the second-epoch algorithm 19. -/
def dh1 : String := hm0.multihash 19 (aC.canonDelta d1)

/-- The cross-epoch update: reveal computed under the first-epoch
algorithm 18, anchored at time 200 inside the second epoch. -/
def opU1 : AnchoredOp :=
  AnchoredOp.update (getRevealValue hm0 (some k0) 18) (some k0) dh1 d1 200

/-- A concrete patch environment with an accepting JWK validator and URI
parser. -/
def envP : PatchEnv :=
  { docJwkValidate := fun _ => Except.ok ()
    parseURIOk := fun _ => true }

/-- A patch environment accepting exactly the URI string uri:ok. -/
def envFalse : PatchEnv :=
  { docJwkValidate := fun _ => Except.ok ()
    parseURIOk := fun s => s = "uri:ok" }

/-- A concrete valid public key. -/
def pkC : PublicKey :=
  [("id", DocValue.str "key1"), ("type", DocValue.str "JsonWebKey2020"),
   ("publicKeyJwk", DocValue.jwkVal { kty := "EC", crv := "P-256", x := "x", y := "y" })]

/-- A second valid public key re-using the id of pkC. -/
def pkC2 : PublicKey :=
  [("id", DocValue.str "key1"), ("type", DocValue.str "Ed25519VerificationKey2018"),
   ("publicKeyJwk", DocValue.jwkVal { kty := "OKP", crv := "Ed25519", x := "x2", y := "" })]

/-- A concrete valid service. -/
def svcGood : Service :=
  { id := "svc1", svcType := "type1", serviceEndpoint := Endpoint.str "uri:ok" }

/-- A service whose endpoint has none of the documented shapes. -/
def svcOther : Service :=
  { id := "svc1", svcType := "type1", serviceEndpoint := Endpoint.otherVal }

/-- A service whose endpoint list carries an invalid URI after a valid
one. -/
def svcMixed : Service :=
  { id := "svc1", svcType := "type1"
    serviceEndpoint := Endpoint.dynList [DynVal.str "uri:ok", DynVal.str "uri:bad"] }

/-- A second valid service re-using the id of svcGood. -/
def svcGood2 : Service :=
  { id := "svc1", svcType := "type2", serviceEndpoint := Endpoint.str "uri:ok" }

/-- Concrete create-request info with equal commitments. -/
def infoC : CreateRequestInfo :=
  { opaqueDocument := "doc"
    patches := []
    recoveryCommitment := "18:same"
    updateCommitment := "18:same"
    anchorOrigin := ""
    infoType := ""
    multihashCode := 18 }

/-- A concrete client environment. -/
def envC : ClientEnv :=
  { hm := hm0
    validCode := fun c => c = 18
    patchesFromDocument := fun _ => Except.ok ["p1"]
    canonDelta := fun d => "D|" ++ d.updateCommitment }

/-! Helper lemmas. -/

/-- The record parseRecoverOperation builds on success. -/
def recoverResult (schema : RecoverRequest) (sd : RecoverSignedDataModel) : Operation :=
  { opType := OpType.recover
    uniqueSuffix := schema.didSuffix
    delta := schema.delta
    signedData := schema.signedData
    revealValue := schema.revealValue
    anchorOrigin := sd.anchorOrigin }

/-- The first string element of a dynamic endpoint list. -/
def firstStr : List DynVal → Option String
  | [] => none
  | DynVal.str s :: _ => some s
  | DynVal.nonStr :: rest => firstStr rest

/-- Amended endpoint acceptance, following the amended claim wording: the
endpoint must be present; a string endpoint must be a valid URI; a list
of strings must contain only valid URIs; in a list of dynamic values only
the first string element, when one exists, is URI-checked; an endpoint of
any other shape is accepted without URI checks. -/
def serviceEndpointAcceptedSpec (env : PatchEnv) : Endpoint → Prop
  | Endpoint.nil => False
  | Endpoint.str s => s ≠ "" ∧ env.parseURIOk s = true
  | Endpoint.strList l => ∀ u ∈ l, u ≠ "" ∧ env.parseURIOk u = true
  | Endpoint.dynList l => ∀ u, firstStr l = some u → u ≠ "" ∧ env.parseURIOk u = true
  | Endpoint.otherVal => True

/-- Success inversion for parseRecoverOperation: a parsed operation
passed the request parse, the signed-data parse, the non-batch checks
when applicable, and the reveal-value check. -/
theorem parseRecover_ok_elim {p : Parser} {request : Option RecoverRequest}
    {batch : Bool} {op : Operation}
    (h : p.parseRecoverOperation request batch = Except.ok op) :
    ∃ schema sd,
      p.parseRecoverRequest request = Except.ok schema ∧
      p.parseSignedDataForRecover schema.signedData = Except.ok sd ∧
      (batch = false →
        p.anchorOriginValidator sd.anchorOrigin = Except.ok () ∧
        p.anchorTimeValidator sd.anchorFrom
          (p.getAnchorUntil sd.anchorFrom sd.anchorUntil) = Except.ok () ∧
        p.validateDelta schema.delta = Except.ok () ∧
        ∃ d, schema.delta = some d ∧ d.updateCommitment ≠ sd.recoveryCommitment) ∧
      isValidModelMultihash p.hashModel sd.recoveryKey schema.revealValue = Except.ok () ∧
      op = recoverResult schema sd := by
  unfold Parser.parseRecoverOperation at h
  split at h
  next e hreq => simp at h
  next schema hreq =>
  split at h
  next e hsd => simp at h
  next sd hsd =>
  refine ⟨schema, sd, hreq, hsd, ?_⟩
  split at h
  next e hif => simp at h
  next u hif =>
  split at h
  next e hval => simp at h
  next u4 hval =>
  simp only [Except.ok.injEq] at h
  refine ⟨?_, hval, h.symm⟩
  intro hb
  rw [if_pos hb] at hif
  split at hif
  next e hao => simp at hif
  next u1 hao =>
  split at hif
  next e hat => simp at hif
  next u2 hat =>
  split at hif
  next e hvd => simp at hif
  next u3 hvd =>
  split at hif
  next hdel => simp at hif
  next d hdel =>
  split at hif
  next hne => simp at hif
  next hne => exact ⟨hao, hat, hvd, d, hdel, hne⟩

/-- Success introduction for parseRecoverOperation. -/
theorem parseRecover_ok_intro {p : Parser} {request : Option RecoverRequest}
    {batch : Bool} {schema : RecoverRequest} {sd : RecoverSignedDataModel}
    (hreq : p.parseRecoverRequest request = Except.ok schema)
    (hsd : p.parseSignedDataForRecover schema.signedData = Except.ok sd)
    (hbatch : batch = false →
      p.anchorOriginValidator sd.anchorOrigin = Except.ok () ∧
      p.anchorTimeValidator sd.anchorFrom
        (p.getAnchorUntil sd.anchorFrom sd.anchorUntil) = Except.ok () ∧
      p.validateDelta schema.delta = Except.ok () ∧
      ∃ d, schema.delta = some d ∧ d.updateCommitment ≠ sd.recoveryCommitment)
    (hval : isValidModelMultihash p.hashModel sd.recoveryKey schema.revealValue =
      Except.ok ()) :
    p.parseRecoverOperation request batch = Except.ok (recoverResult schema sd) := by
  unfold Parser.parseRecoverOperation
  by_cases hb : batch = false
  · obtain ⟨hao, hat, hvd, d, hdel, hne⟩ := hbatch hb
    rw [hdel] at hvd
    simp only [hreq, hsd, if_pos hb, hao, hat, hvd, hdel, if_neg hne, hval]
    simp [recoverResult, hdel]
  · simp only [hreq, hsd, if_neg hb, hval]
    rfl

/-- Wrap-around is the identity inside the 64-bit signed range. -/
theorem wrapInt64_eq_self {x : Int} (h1 : -(2 ^ 63) ≤ x) (h2 : x < 2 ^ 63) :
    wrapInt64 x = x := by
  unfold wrapInt64
  have h3 : 0 ≤ x + 2 ^ 63 := by linarith
  have h4 : x + 2 ^ 63 < 2 ^ 64 := by
    have h5 : (2 : Int) ^ 64 = 2 ^ 63 + 2 ^ 63 := by norm_num
    linarith
  rw [Int.emod_eq_of_lt h3 h4]
  ring

/-- C2: ParseRecoverOperation returns an operation, in batch and
non-batch mode alike, only when the multihash of the canonicalized
recovery public key from the signed data, computed with the algorithm
encoded inside the reveal value of the operation, equals that reveal
value; a mismatch makes parsing return an error. -/
theorem claim_reveal_matching_recover (p : Parser) (request : Option RecoverRequest)
    (batch : Bool) :
    (∀ op, p.parseRecoverOperation request batch = Except.ok op →
      ∃ sd, p.parseSignedDataForRecover op.signedData = Except.ok sd ∧
        isValidModelMultihash p.hashModel sd.recoveryKey op.revealValue = Except.ok ()) ∧
    (∀ schema sd, p.parseRecoverRequest request = Except.ok schema →
      p.parseSignedDataForRecover schema.signedData = Except.ok sd →
      isValidModelMultihash p.hashModel sd.recoveryKey schema.revealValue ≠ Except.ok () →
      ∃ e, p.parseRecoverOperation request batch = Except.error e) := by
  constructor
  · intro op h
    obtain ⟨schema, sd, hreq, hsd, hb, hval, hop⟩ := parseRecover_ok_elim h
    subst hop
    exact ⟨sd, hsd, hval⟩
  · intro schema sd hreq hsd hmis
    cases hres : p.parseRecoverOperation request batch with
    | error e => exact ⟨e, rfl⟩
    | ok op =>
      obtain ⟨schema2, sd2, hreq2, hsd2, hb2, hval2, hop2⟩ := parseRecover_ok_elim hres
      have hs := hreq.symm.trans hreq2
      injection hs with hs
      subst hs
      have hs2 := hsd.symm.trans hsd2
      injection hs2 with hs2
      subst hs2
      exact absurd hval2 hmis

/-- C2 witness: the concrete recover request parses and its reveal value
matches the hash of the canonicalized recovery key. -/
theorem claim_reveal_matching_recover_witness :
    ∃ sd, pC.parseSignedDataForRecover op0.signedData = Except.ok sd ∧
      isValidModelMultihash pC.hashModel sd.recoveryKey op0.revealValue = Except.ok () :=
  (claim_reveal_matching_recover pC (some req0) false).1 op0 (by rfl)

/-- C4: within one signed-data payload the two commitments must differ:
a recover operation parsed in non-batch mode has a delta update
commitment different from the signed-data recovery commitment, and
NewCreateRequest errors whenever the supplied recovery commitment equals
the supplied update commitment. -/
theorem claim_commitments_differ :
    (∀ (p : Parser) (request : Option RecoverRequest) (op : Operation),
      p.parseRecoverOperation request false = Except.ok op →
      ∀ d sd, op.delta = some d →
        p.parseSignedDataForRecover op.signedData = Except.ok sd →
        d.updateCommitment ≠ sd.recoveryCommitment) ∧
    (∀ (env : ClientEnv) (info : CreateRequestInfo),
      info.recoveryCommitment = info.updateCommitment →
      ∃ e, newCreateRequest env info = Except.error e) := by
  constructor
  · intro p request op h d sd hd hsd
    obtain ⟨schema, sd2, hreq, hsd2, hb, hval, hop⟩ := parseRecover_ok_elim h
    subst hop
    simp only [recoverResult] at hd hsd
    have hs2 := hsd2.symm.trans hsd
    injection hs2 with hs2
    subst hs2
    obtain ⟨hao, hat, hvd, d2, hdel2, hne⟩ := hb rfl
    have hdd := hdel2.symm.trans hd
    injection hdd with hdd
    subst hdd
    exact hne
  · intro env info heq
    cases hval : validateCreateRequest env info with
    | error e =>
        refine ⟨e, ?_⟩
        unfold newCreateRequest
        rw [hval]
    | ok u =>
        exfalso
        unfold validateCreateRequest at hval
        split_ifs at hval with h1 h2 h3 h4 h5 h6 <;> simp_all

/-- C4 witness: at the concrete inputs, the parsed recover operation has
distinct commitments and the create request with equal commitments is
rejected. -/
theorem claim_commitments_differ_witness :
    delta0.updateCommitment ≠ sd0.recoveryCommitment ∧
    ∃ e, newCreateRequest envC infoC = Except.error e :=
  ⟨claim_commitments_differ.1 pC (some req0) op0 (by rfl) delta0 sd0 (by rfl) (by rfl),
   claim_commitments_differ.2 envC infoC (by rfl)⟩

/-- C9: in non-batch mode, when the signed data has anchor-from set and
anchor-until zero, the bound handed to the anchor-time validator is
anchor-from plus the protocol max delta size; otherwise anchor-until is
passed through unchanged; and a successful parse implies the validator
accepted exactly that bound. -/
theorem claim_anchor_until_bound :
    (∀ (p : Parser) (af : Int),
      af ≠ 0 →
      (p.protocol.maxDeltaSize : Int) < 2 ^ 63 →
      -(2 ^ 63) ≤ af + (p.protocol.maxDeltaSize : Int) →
      af + (p.protocol.maxDeltaSize : Int) < 2 ^ 63 →
      p.getAnchorUntil af 0 = af + (p.protocol.maxDeltaSize : Int)) ∧
    (∀ (p : Parser) (af au : Int), ¬(af ≠ 0 ∧ au = 0) →
      p.getAnchorUntil af au = au) ∧
    (∀ (p : Parser) (request : Option RecoverRequest) (op : Operation),
      p.parseRecoverOperation request false = Except.ok op →
      ∀ sd, p.parseSignedDataForRecover op.signedData = Except.ok sd →
        p.anchorTimeValidator sd.anchorFrom
          (p.getAnchorUntil sd.anchorFrom sd.anchorUntil) = Except.ok ()) := by
  refine ⟨?_, ?_, ?_⟩
  · intro p af haf hm h1 h2
    unfold Parser.getAnchorUntil
    rw [if_pos ⟨haf, rfl⟩]
    have hmz : (0 : Int) ≤ (p.protocol.maxDeltaSize : Int) := Int.natCast_nonneg _
    have hsz : int64OfNat p.protocol.maxDeltaSize = (p.protocol.maxDeltaSize : Int) := by
      unfold int64OfNat
      exact wrapInt64_eq_self (by linarith) hm
    rw [hsz]
    exact wrapInt64_eq_self h1 h2
  · intro p af au hcond
    unfold Parser.getAnchorUntil
    rw [if_neg hcond]
  · intro p request op h sd hsd
    obtain ⟨schema, sd2, hreq, hsd2, hb, hval, hop⟩ := parseRecover_ok_elim h
    subst hop
    simp only [recoverResult] at hsd
    have hs2 := hsd2.symm.trans hsd
    injection hs2 with hs2
    subst hs2
    obtain ⟨hao, hat, hvd, d2, hdel2, hne⟩ := hb rfl
    exact hat

/-- C9 witness: concrete evaluations of the three parts. -/
theorem claim_anchor_until_bound_witness :
    pC.getAnchorUntil 7 0 = 7 + (pC.protocol.maxDeltaSize : Int) ∧
    pC.getAnchorUntil 7 9 = 9 ∧
    pC.anchorTimeValidator sd0.anchorFrom
      (pC.getAnchorUntil sd0.anchorFrom sd0.anchorUntil) = Except.ok () :=
  ⟨claim_anchor_until_bound.1 pC 7 (by decide) (by decide) (by decide) (by decide),
   claim_anchor_until_bound.2.1 pC 7 9 (by decide),
   claim_anchor_until_bound.2.2 pC (some req0) op0 (by rfl) sd0 (by rfl)⟩

/-- Characterization of validateProtectedHeaders. -/
theorem validateProtectedHeaders_ok_iff (p : Parser) (headers : Option Headers)
    (allowed : List String) :
    p.validateProtectedHeaders headers allowed = Except.ok () ↔
    ∃ hs alg, headers = some hs ∧ headersAlgorithm hs = some alg ∧ alg ≠ "" ∧
      containsStr allowed alg = true ∧ ∀ kv ∈ hs, kv.1 = "alg" ∨ kv.1 = "kid" := by
  unfold Parser.validateProtectedHeaders
  cases headers with
  | none => simp
  | some hs =>
    cases halg : headersAlgorithm hs with
    | none => simp [halg]
    | some alg =>
      simp only [halg]
      constructor
      · intro h
        split_ifs at h with he hall hcon <;> try simp at h
        refine ⟨hs, alg, rfl, halg, he, ?_, ?_⟩
        · simpa using hcon
        · have hall2 : (hs.all fun kv => decide (kv.1 = "alg" ∨ kv.1 = "kid")) = true := by
            cases hq : hs.all fun kv => decide (kv.1 = "alg" ∨ kv.1 = "kid")
            · exact absurd hq hall
            · rfl
          intro kv hkv
          have hx := List.all_eq_true.mp hall2 kv hkv
          simpa using hx
      · rintro ⟨hs2, alg2, heq, halg2, hne, hcon, hmem⟩
        injection heq with heq
        subst heq
        rw [halg] at halg2
        injection halg2 with halg2
        subst halg2
        have hall : hs.all (fun kv => kv.1 = "alg" ∨ kv.1 = "kid") = true := by
          simpa [List.all_eq_true] using hmem
        rw [if_neg hne, hall]
        simp [hcon]

/-- C6: parsing the signed data of an operation succeeds only if the
protected header is present with a non-empty alg value drawn from the
protocol allowed signature algorithms and no member beyond alg and kid; a
missing header map, a missing or empty alg, a disallowed alg, or an extra
member each make parsing return an error. -/
theorem claim_protected_headers (p : Parser) :
    (∀ {π : Type} (b : CompactJWS π) (r : Option Headers × π),
      p.parseSignedData b = Except.ok r →
      ∃ hdrs payload hs alg, b = CompactJWS.parsed hdrs payload ∧ hdrs = some hs ∧
        headersAlgorithm hs = some alg ∧ alg ≠ "" ∧
        containsStr p.protocol.signatureAlgorithms alg = true ∧
        ∀ kv ∈ hs, kv.1 = "alg" ∨ kv.1 = "kid") ∧
    (∀ {π : Type} (hdrs : Option Headers) (payload : π),
      (∃ r, p.parseSignedData (CompactJWS.parsed hdrs payload) = Except.ok r) ↔
      (∃ hs alg, hdrs = some hs ∧ headersAlgorithm hs = some alg ∧ alg ≠ "" ∧
        containsStr p.protocol.signatureAlgorithms alg = true ∧
        ∀ kv ∈ hs, kv.1 = "alg" ∨ kv.1 = "kid")) := by
  constructor
  · intro π b r h
    cases b with
    | empty => simp [Parser.parseSignedData] at h
    | malformed => simp [Parser.parseSignedData] at h
    | parsed hdrs payload =>
      simp only [Parser.parseSignedData] at h
      split at h
      next e hv => simp at h
      next u hv =>
        cases u
        obtain ⟨hs, alg, h1, h2, h3, h4, h5⟩ :=
          (validateProtectedHeaders_ok_iff p hdrs p.protocol.signatureAlgorithms).mp hv
        exact ⟨hdrs, payload, hs, alg, rfl, h1, h2, h3, h4, h5⟩
  · intro π hdrs payload
    constructor
    · rintro ⟨r, h⟩
      simp only [Parser.parseSignedData] at h
      split at h
      next e hv => simp at h
      next u hv =>
        cases u
        exact (validateProtectedHeaders_ok_iff p hdrs p.protocol.signatureAlgorithms).mp hv
    · intro hcond
      have hv := (validateProtectedHeaders_ok_iff p hdrs p.protocol.signatureAlgorithms).mpr hcond
      refine ⟨(hdrs, payload), ?_⟩
      simp only [Parser.parseSignedData]
      rw [hv]

/-- C6 witness: the concrete parsed compact JWS with the single alg
header passes, and its header facts follow from the claim theorem. -/
theorem claim_protected_headers_witness :
    ∃ hdrs payload hs alg,
      (CompactJWS.parsed (some hdrs0) (some sd0) :
        CompactJWS (Option RecoverSignedDataModel)) = CompactJWS.parsed hdrs payload ∧
      hdrs = some hs ∧ headersAlgorithm hs = some alg ∧ alg ≠ "" ∧
      containsStr pC.protocol.signatureAlgorithms alg = true ∧
      ∀ kv ∈ hs, kv.1 = "alg" ∨ kv.1 = "kid" :=
  (claim_protected_headers pC).1 (CompactJWS.parsed (some hdrs0) (some sd0))
    ((some hdrs0), some sd0) (by rfl)

/-- Per-key facts guaranteed by a successful public-key validation loop. -/
theorem validatePublicKeysLoop_ok_props (env : PatchEnv) :
    ∀ (keys : List PublicKey) (ids : List String),
      validatePublicKeysLoop env ids keys = Except.ok () →
      ∀ pk ∈ keys,
        validateID (pkID pk) = Except.ok () ∧
        validateKeyPurposes pk = Except.ok () ∧
        validateKeyTypePurpose pk = true := by
  intro keys
  induction keys with
  | nil => intro ids h pk hpk; simp at hpk
  | cons pk0 rest ih =>
    intro ids h pk hpk
    unfold validatePublicKeysLoop at h
    split at h
    next e hp => simp at h
    next u hp =>
    split at h
    next e hid => simp at h
    next u2 hid =>
    split at h
    next hdup => simp at h
    next hdup =>
    split at h
    next e hpur => simp at h
    next u3 hpur =>
    split at h
    next htp => simp at h
    next htp =>
    have hid2 : validateID (pkID pk0) = Except.ok () := by cases u2; exact hid
    have hpur2 : validateKeyPurposes pk0 = Except.ok () := by cases u3; exact hpur
    have htp2 : validateKeyTypePurpose pk0 = true := by
      cases hq : validateKeyTypePurpose pk0
      · exact absurd hq htp
      · rfl
    cases hpk with
    | head => exact ⟨hid2, hpur2, htp2⟩
    | tail _ hmem =>
      split at h
      next e hjwk =>
        split at h
        next hb => simp at h
        next hb => exact ih (pkID pk0 :: ids) h pk hmem
      next u4 hjwk => exact ih (pkID pk0 :: ids) h pk hmem

/-- C7: a public-key list validates only if every key has an id of at
most 50 bytes matching the id pattern, purposes drawn from the five
allowed purposes, and a key type the fixed allow-list permits for each of
its purposes; any violation fails the whole list. -/
theorem claim_add_public_keys_validation (env : PatchEnv) (pubKeys : List PublicKey) :
    validatePublicKeys env pubKeys = Except.ok () →
    ∀ pk ∈ pubKeys,
      (pkID pk).utf8ByteSize ≤ 50 ∧ asciiRegexMatch (pkID pk) = true ∧
      (∀ purpose ∈ pkPurpose pk, purpose ∈ allowedPurposes) ∧
      (∀ purpose ∈ pkPurpose pk,
        ∃ allowed, allowedKeyTypes purpose = some allowed ∧ pkType pk ∈ allowed) := by
  intro h pk hpk
  obtain ⟨hid, hpur, htp⟩ := validatePublicKeysLoop_ok_props env pubKeys [] h pk hpk
  refine ⟨?_, ?_, ?_, ?_⟩
  · unfold validateID at hid
    split_ifs at hid with h1 h2
    omega
  · unfold validateID at hid
    split_ifs at hid with h1 h2
    cases hq : asciiRegexMatch (pkID pk)
    · exact absurd hq h2
    · rfl
  · unfold validateKeyPurposes at hpur
    split_ifs at hpur with h1 h2 h3
    intro purpose hmem
    have h4 : ((pkPurpose pk).all fun purpose => decide (purpose ∈ allowedPurposes)) = true := by
      cases hq : (pkPurpose pk).all fun purpose => decide (purpose ∈ allowedPurposes)
      · exact absurd hq h3
      · rfl
    have hx := List.all_eq_true.mp h4 purpose hmem
    simpa using hx
  · unfold validateKeyTypePurpose at htp
    rw [Bool.and_eq_true] at htp
    intro purpose hmem
    have hx := List.all_eq_true.mp htp.2 purpose hmem
    cases hat : allowedKeyTypes purpose with
    | none => rw [hat] at hx; simp at hx
    | some allowed =>
        rw [hat] at hx
        simp only [decide_eq_true_eq] at hx
        exact ⟨allowed, rfl, hx⟩

/-- C7 witness: the concrete key list passes and the claim facts follow
for its single key. -/
theorem claim_add_public_keys_validation_witness :
    (pkID pkC).utf8ByteSize ≤ 50 ∧ asciiRegexMatch (pkID pkC) = true ∧
    (∀ purpose ∈ pkPurpose pkC, purpose ∈ allowedPurposes) ∧
    (∀ purpose ∈ pkPurpose pkC,
      ∃ allowed, allowedKeyTypes purpose = some allowed ∧ pkType pkC ∈ allowed) :=
  claim_add_public_keys_validation envP [pkC] (by rfl) pkC (by simp)

/-- A successful public-key validation loop has pairwise distinct ids,
none of them among the already-seen ids. -/
theorem validatePublicKeysLoop_nodup (env : PatchEnv) :
    ∀ (keys : List PublicKey) (ids : List String),
      validatePublicKeysLoop env ids keys = Except.ok () →
      (keys.map pkID).Nodup ∧ ∀ pk ∈ keys, pkID pk ∉ ids := by
  intro keys
  induction keys with
  | nil => intro ids h; simp
  | cons pk0 rest ih =>
    intro ids h
    unfold validatePublicKeysLoop at h
    split at h
    next e hp => simp at h
    next u hp =>
    split at h
    next e hid => simp at h
    next u2 hid =>
    split at h
    next hdup => simp at h
    next hdup =>
    split at h
    next e hpur => simp at h
    next u3 hpur =>
    split at h
    next htp => simp at h
    next htp =>
    have hrec : validatePublicKeysLoop env (pkID pk0 :: ids) rest = Except.ok () := by
      split at h
      next e hjwk =>
        split at h
        next hb => simp at h
        next hb => exact h
      next u4 hjwk => exact h
    obtain ⟨hnodup, hfresh⟩ := ih (pkID pk0 :: ids) hrec
    constructor
    · simp only [List.map_cons, List.nodup_cons]
      refine ⟨?_, hnodup⟩
      intro hmem
      obtain ⟨pk, hpk, hpkid⟩ := List.mem_map.mp hmem
      have := hfresh pk hpk
      rw [hpkid] at this
      exact this (List.mem_cons_self _ _)
    · intro pk hpk
      cases hpk with
      | head => exact hdup
      | tail _ hmem =>
        intro hin
        exact hfresh pk hmem (List.mem_cons_of_mem _ hin)

/-- A successful service validation loop has pairwise distinct ids, none
of them among the already-seen ids. -/
theorem validateServicesLoop_nodup (env : PatchEnv) :
    ∀ (services : List Service) (ids : List String),
      validateServicesLoop env ids services = Except.ok () →
      (services.map Service.id).Nodup ∧ ∀ s ∈ services, s.id ∉ ids := by
  intro services
  induction services with
  | nil => intro ids h; simp
  | cons s0 rest ih =>
    intro ids h
    unfold validateServicesLoop at h
    split at h
    next e hs => simp at h
    next u hs =>
    split at h
    next hdup => simp at h
    next hdup =>
    obtain ⟨hnodup, hfresh⟩ := ih (s0.id :: ids) h
    constructor
    · simp only [List.map_cons, List.nodup_cons]
      refine ⟨?_, hnodup⟩
      intro hmem
      obtain ⟨s, hsm, hsid⟩ := List.mem_map.mp hmem
      have := hfresh s hsm
      rw [hsid] at this
      exact this (List.mem_cons_self _ _)
    · intro s hsm
      cases hsm with
      | head => exact hdup
      | tail _ hmem =>
        intro hin
        exact hfresh s hmem (List.mem_cons_of_mem _ hin)

/-- C10: two public keys sharing an id within one AddPublicKeys patch
fail validation with a duplicate-id error, and likewise two services
sharing an id within one AddServices patch. -/
theorem claim_duplicate_ids_fail :
    (∀ (env : PatchEnv) (pubKeys : List PublicKey),
      validatePublicKeys env pubKeys = Except.ok () → (pubKeys.map pkID).Nodup) ∧
    (validatePublicKeys envP [pkC, pkC2] =
      Except.error "duplicate public key id: key1") ∧
    (∀ (env : PatchEnv) (services : List Service),
      validateServices env services = Except.ok () → (services.map Service.id).Nodup) ∧
    (validateServices envP [svcGood, svcGood2] =
      Except.error "duplicate service id: svc1") := by
  refine ⟨?_, by rfl, ?_, by rfl⟩
  · intro env pubKeys h
    exact (validatePublicKeysLoop_nodup env pubKeys [] h).1
  · intro env services h
    exact (validateServicesLoop_nodup env services [] h).1

/-- C10 witness: applying the general parts at concrete singletons. -/
theorem claim_duplicate_ids_fail_witness :
    ([pkC].map pkID).Nodup ∧ ([svcGood].map Service.id).Nodup :=
  ⟨claim_duplicate_ids_fail.1 envP [pkC] (by rfl),
   claim_duplicate_ids_fail.2.2.1 envP [svcGood] (by rfl)⟩

/-- Characterization of validateURI. -/
theorem validateURI_ok_iff (env : PatchEnv) (uri : String) :
    validateURI env uri = Except.ok () ↔ uri ≠ "" ∧ env.parseURIOk uri = true := by
  unfold validateURI
  split_ifs with h1 h2
  · simp [h1]
  · constructor
    · intro h; simp at h
    · rintro ⟨hne, hok⟩; exact absurd hok (by simpa using h2)
  · constructor
    · intro _; exact ⟨h1, by simpa using h2⟩
    · intro _; rfl

/-- Characterization of validateURIs. -/
theorem validateURIs_ok_iff (env : PatchEnv) (uris : List String) :
    validateURIs env uris = Except.ok () ↔
    ∀ u ∈ uris, u ≠ "" ∧ env.parseURIOk u = true := by
  induction uris with
  | nil => simp [validateURIs]
  | cons u rest ih =>
    unfold validateURIs
    constructor
    · intro h
      split at h
      next e hu => simp at h
      next u2 hu =>
        cases u2
        intro v hv
        cases hv with
        | head => exact (validateURI_ok_iff env u).mp hu
        | tail _ hmem => exact ih.mp h v hmem
    · intro hall
      have hu := (validateURI_ok_iff env u).mpr (hall u (List.mem_cons_self _ _))
      rw [hu]
      exact ih.mpr (fun v hv => hall v (List.mem_cons_of_mem _ hv))

/-- Characterization of validateServiceEndpointObjects. -/
theorem validateServiceEndpointObjects_ok_iff (env : PatchEnv) (objs : List DynVal) :
    validateServiceEndpointObjects env objs = Except.ok () ↔
    ∀ u, firstStr objs = some u → u ≠ "" ∧ env.parseURIOk u = true := by
  induction objs with
  | nil => simp [validateServiceEndpointObjects, firstStr]
  | cons obj rest ih =>
    cases obj with
    | str s =>
      unfold validateServiceEndpointObjects firstStr
      rw [validateURI_ok_iff]
      constructor
      · rintro ⟨hne, hok⟩ u hu
        injection hu with hu
        subst hu
        exact ⟨hne, hok⟩
      · intro hall
        exact hall s rfl
    | nonStr =>
      unfold validateServiceEndpointObjects firstStr
      exact ih

/-- Characterization of validateServiceEndpoint against the amended
acceptance predicate. -/
theorem validateServiceEndpoint_ok_iff (env : PatchEnv) (ep : Endpoint) :
    validateServiceEndpoint env ep = Except.ok () ↔
    serviceEndpointAcceptedSpec env ep := by
  cases ep with
  | nil => simp [validateServiceEndpoint, serviceEndpointAcceptedSpec]
  | str s =>
    simp only [validateServiceEndpoint, serviceEndpointAcceptedSpec]
    exact validateURI_ok_iff env s
  | strList l =>
    simp only [validateServiceEndpoint, serviceEndpointAcceptedSpec]
    exact validateURIs_ok_iff env l
  | dynList l =>
    simp only [validateServiceEndpoint, serviceEndpointAcceptedSpec]
    exact validateServiceEndpointObjects_ok_iff env l
  | otherVal => simp [validateServiceEndpoint, serviceEndpointAcceptedSpec]

/-- C8 counterexample: a service whose endpoint has none of the shapes
the claim lists validates, and a service whose endpoint list carries an
invalid URI after a valid one also validates. -/
theorem claim_service_endpoint_counterexample :
    validateService envFalse svcOther = Except.ok () ∧
    svcOther.serviceEndpoint = Endpoint.otherVal ∧
    validateService envFalse svcMixed = Except.ok () ∧
    svcMixed.serviceEndpoint =
      Endpoint.dynList [DynVal.str "uri:ok", DynVal.str "uri:bad"] ∧
    envFalse.parseURIOk "uri:bad" = false := by
  exact ⟨by rfl, by rfl, by rfl, by rfl, by rfl⟩

/-- C8 amended: a service validates only if its type is non-empty and at
most 30 bytes and its endpoint is accepted under the amended endpoint
rules; endpoint acceptance is exactly: present, a string endpoint is a
valid URI, a string list contains only valid URIs, in a dynamic list only
the first string element is URI-checked, and any other shape passes. -/
theorem claim_service_validation_amended (env : PatchEnv) (service : Service) :
    (validateService env service = Except.ok () →
      service.svcType ≠ "" ∧ service.svcType.utf8ByteSize ≤ 30 ∧
      serviceEndpointAcceptedSpec env service.serviceEndpoint) ∧
    (validateServiceEndpoint env service.serviceEndpoint = Except.ok () ↔
      serviceEndpointAcceptedSpec env service.serviceEndpoint) := by
  constructor
  · intro h
    unfold validateService at h
    split at h
    next e hid => simp at h
    next u hid =>
    split at h
    next e ht => simp at h
    next u2 ht =>
    have hep := (validateServiceEndpoint_ok_iff env service.serviceEndpoint).mp (by
      cases hq : validateServiceEndpoint env service.serviceEndpoint with
      | error e => rw [hq] at h; simp at h
      | ok u3 => cases u3; rfl)
    unfold validateServiceType at ht
    split_ifs at ht with h1 h2
    exact ⟨h1, by omega, hep⟩
  · exact validateServiceEndpoint_ok_iff env service.serviceEndpoint

/-- C8 amended witness: the concrete valid service yields the amended
facts through the theorem. -/
theorem claim_service_validation_amended_witness :
    svcGood.svcType ≠ "" ∧ svcGood.svcType.utf8ByteSize ≤ 30 ∧
    serviceEndpointAcceptedSpec envFalse svcGood.serviceEndpoint :=
  (claim_service_validation_amended envFalse svcGood).1 (by rfl)

/-- A deactivated model absorbs any further operation. -/
theorem applyOperation_deactivated (a : Applier) (m : ResolutionModel)
    (op : AnchoredOp) (h : m.deactivated = true) : a.applyOperation m op = m := by
  unfold Applier.applyOperation
  rw [if_pos h]

/-- A deactivated model absorbs any further operation list. -/
theorem resolveOps_deactivated (a : Applier) :
    ∀ (ops : List AnchoredOp) (m : ResolutionModel), m.deactivated = true →
      a.resolveOps m ops = m := by
  intro ops
  induction ops with
  | nil => intro m h; rfl
  | cons op rest ih =>
    intro m h
    unfold Applier.resolveOps
    simp only [List.foldl_cons]
    rw [applyOperation_deactivated a m op h]
    exact ih m h

/-- One application preserves the invariant that a deactivated model has
empty commitments. -/
theorem applyOperation_cleared (a : Applier) (m : ResolutionModel) (op : AnchoredOp)
    (h : m.deactivated = true → m.updateCommitment = "" ∧ m.recoveryCommitment = "") :
    (a.applyOperation m op).deactivated = true →
      (a.applyOperation m op).updateCommitment = "" ∧
      (a.applyOperation m op).recoveryCommitment = "" := by
  unfold Applier.applyOperation
  by_cases hd : m.deactivated = true
  · rw [if_pos hd]; exact h
  · rw [if_neg hd]
    cases hreg : registryGet a.registry op.txnTime with
    | none => exact h
    | some p =>
      cases op with
      | create sd d t => exact h
      | update rv key dh d t =>
        dsimp only
        by_cases hv : a.validUpdate p m rv key dh d = true
        · rw [if_pos hv]
          cases hap : a.applyPatches m.doc d.patches with
          | none => exact h
          | some doc2 =>
            intro hdd
            exact absurd hdd hd
        · rw [if_neg hv]; exact h
      | recover rv key newRC dh d t =>
        dsimp only
        by_cases hv : (a.validRecoveryReveal p m rv key && a.validRecoverDelta p dh d) = true
        · rw [if_pos hv]
          cases hap : a.applyPatches [] d.patches with
          | none =>
            intro hdd
            exact absurd hdd hd
          | some doc2 =>
            intro hdd
            exact absurd hdd hd
        · rw [if_neg hv]; exact h
      | deactivate rv key t =>
        dsimp only
        by_cases hv : a.validRecoveryReveal p m rv key = true
        · rw [if_pos hv]
          intro _
          exact ⟨rfl, rfl⟩
        · rw [if_neg hv]; exact h

/-- Resolution preserves the invariant that a deactivated model has empty
commitments. -/
theorem resolveOps_cleared (a : Applier) :
    ∀ (ops : List AnchoredOp) (m : ResolutionModel),
      (m.deactivated = true → m.updateCommitment = "" ∧ m.recoveryCommitment = "") →
      ((a.resolveOps m ops).deactivated = true →
        (a.resolveOps m ops).updateCommitment = "" ∧
        (a.resolveOps m ops).recoveryCommitment = "") := by
  intro ops
  induction ops with
  | nil => intro m h; exact h
  | cons op rest ih =>
    intro m h
    exact ih (a.applyOperation m op) (applyOperation_cleared a m op h)

/-- C1: a history whose resolution reaches a successful deactivate ends
deactivated with both commitments empty, and appending any further
operations leaves the resolved model unchanged. -/
theorem claim_deactivate_terminal (a : Applier) (m : ResolutionModel)
    (ops : List AnchoredOp) (hstart : m.deactivated = false)
    (hfin : (a.resolveOps m ops).deactivated = true) :
    (a.resolveOps m ops).updateCommitment = "" ∧
    (a.resolveOps m ops).recoveryCommitment = "" ∧
    ∀ extra, a.resolveOps m (ops ++ extra) = a.resolveOps m ops := by
  have hcl := resolveOps_cleared a ops m
    (fun hd => absurd (hstart.symm.trans hd) (by simp)) hfin
  refine ⟨hcl.1, hcl.2, ?_⟩
  intro extra
  have happ : a.resolveOps m (ops ++ extra) =
      a.resolveOps (a.resolveOps m ops) extra := by
    unfold Applier.resolveOps
    exact List.foldl_append _ _ _ _
  rw [happ]
  exact resolveOps_deactivated a extra _ hfin

/-- C1 witness: the concrete deactivate history ends cleared and an
appended update is a no-op. -/
theorem claim_deactivate_terminal_witness :
    (aC.resolveOps m0 [deactOp0]).updateCommitment = "" ∧
    (aC.resolveOps m0 [deactOp0]).recoveryCommitment = "" ∧
    aC.resolveOps m0 ([deactOp0] ++ [updOp0]) = aC.resolveOps m0 [deactOp0] := by
  have h := claim_deactivate_terminal aC m0 [deactOp0] (by rfl) (by rfl)
  exact ⟨h.1, h.2.1, h.2.2 [updOp0]⟩

/-- C3: the parser rejects an update whose key commitment equals the next
commitment carried in the delta, and the applier discards an update whose
delta update commitment equals the stored update commitment, leaving the
model unchanged. -/
theorem claim_update_key_reuse_rejected :
    (∀ (p : Parser) (jwk : Option JWK) (next : String) (c : Nat),
      p.hashModel.code next = some c →
      getCommitment p.hashModel jwk c = next →
      p.validateCommitment jwk next =
        Except.error "re-using public keys for commitment is not allowed") ∧
    (∀ (a : Applier) (m : ResolutionModel) (rv : String) (key : Option JWK)
       (dh : String) (d : DeltaModel) (t : Nat),
      d.updateCommitment = m.updateCommitment →
      a.applyOperation m (AnchoredOp.update rv key dh d t) = m) := by
  constructor
  · intro p jwk next c hc hcomm
    unfold Parser.validateCommitment getMultihashCode
    rw [hc]
    simp [hcomm]
  · intro a m rv key dh d t heq
    unfold Applier.applyOperation
    by_cases hd : m.deactivated = true
    · rw [if_pos hd]
    · rw [if_neg hd]
      cases hreg : registryGet a.registry (AnchoredOp.update rv key dh d t).txnTime with
      | none => rfl
      | some p =>
        have hv : a.validUpdate p m rv key dh d = false := by
          unfold Applier.validUpdate
          cases a.hm.code rv with
          | none => rfl
          | some c =>
            cases a.hm.code dh with
            | none => rfl
            | some cd => simp [heq]
        simp [hv]

/-- C3 witness: the concrete reused commitment is rejected by the parser
and discarded by the applier. -/
theorem claim_update_key_reuse_rejected_witness :
    pC.validateCommitment (some k0) (getCommitment hm0 (some k0) 18) =
      Except.error "re-using public keys for commitment is not allowed" ∧
    aC.applyOperation m1
      (AnchoredOp.update rv0 (some k0) "18:dh"
        { updateCommitment := m1.updateCommitment, patches := [] } 1) = m1 :=
  ⟨claim_update_key_reuse_rejected.1 pC (some k0) (getCommitment hm0 (some k0) 18) 18
      (by rfl) (by rfl),
   claim_update_key_reuse_rejected.2 aC m1 rv0 (some k0) "18:dh"
      { updateCommitment := m1.updateCommitment, patches := [] } 1 (by rfl)⟩

/-- Applying one operation depends on the registry only through the
protocol record in force at the transaction time of that operation. -/
theorem applyOperation_registry_congr (hm : HashModel)
    (ap : Doc → List String → Option Doc) (cd : DeltaModel → String)
    (r1 r2 : List Protocol) (m : ResolutionModel) (op : AnchoredOp)
    (h : registryGet r1 op.txnTime = registryGet r2 op.txnTime) :
    Applier.applyOperation { hm := hm, registry := r1, applyPatches := ap, canonDelta := cd } m op =
    Applier.applyOperation { hm := hm, registry := r2, applyPatches := ap, canonDelta := cd } m op := by
  unfold Applier.applyOperation
  rw [h]
  simp only [Applier.validUpdate, Applier.validRecoveryReveal, Applier.validRecoverDelta]

/-- C5: the resolver validates every anchored operation under the
protocol record in force at the transaction time of that operation alone
(two registries agreeing at those instants resolve identically), and an
update anchored after a protocol change still verifies its reveal against
the commitment computed under the earlier epoch algorithm carried inside
the reveal value. -/
theorem claim_protocol_epoch_correctness :
    (∀ (hm : HashModel) (ap : Doc → List String → Option Doc)
       (cd : DeltaModel → String) (r1 r2 : List Protocol)
       (m : ResolutionModel) (ops : List AnchoredOp),
      (∀ op ∈ ops, registryGet r1 op.txnTime = registryGet r2 op.txnTime) →
      Applier.resolveOps { hm := hm, registry := r1, applyPatches := ap, canonDelta := cd } m ops =
      Applier.resolveOps { hm := hm, registry := r2, applyPatches := ap, canonDelta := cd } m ops) ∧
    (∀ (a : Applier) (p : Protocol) (m : ResolutionModel) (key : Option JWK)
       (cE : Nat) (cN : Nat) (d : DeltaModel) (dh : String) (t : Nat) (doc2 : Doc),
      registryGet a.registry t = some p →
      m.deactivated = false →
      a.hm.code (getRevealValue a.hm key cE) = some cE →
      cE ∈ p.multihashAlgorithms →
      m.updateCommitment = getCommitment a.hm key cE →
      a.hm.code dh = some cN →
      cN ∈ p.multihashAlgorithms →
      a.hm.multihash cN (a.canonDelta d) = dh →
      d.updateCommitment ≠ m.updateCommitment →
      a.applyPatches m.doc d.patches = some doc2 →
      a.applyOperation m (AnchoredOp.update (getRevealValue a.hm key cE) key dh d t) =
        { m with doc := doc2, updateCommitment := d.updateCommitment }) := by
  constructor
  · intro hm ap cd r1 r2 m ops
    induction ops generalizing m with
    | nil => intro _; rfl
    | cons op rest ih =>
      intro hagree
      unfold Applier.resolveOps
      simp only [List.foldl_cons]
      rw [applyOperation_registry_congr hm ap cd r1 r2 m op
        (hagree op (List.mem_cons_self _ _))]
      exact ih _ (fun o ho => hagree o (List.mem_cons_of_mem _ ho))
  · intro a p m key cE cN d dh t doc2 hreg hdeact hcode hcE hmuc hcdh hcN hdh hne hap
    have hv : a.validUpdate p m (getRevealValue a.hm key cE) key dh d = true := by
      unfold Applier.validUpdate
      rw [hcode, hcdh]
      have hne2 : d.updateCommitment ≠ a.hm.multihash cE (getRevealValue a.hm key cE) := by
        rw [hmuc] at hne
        simpa [getCommitment] using hne
      simp [hcE, hcN, hdh, hne2, hmuc, getCommitment]
    unfold Applier.applyOperation
    rw [if_neg (by simp [hdeact])]
    simp only [AnchoredOp.txnTime]
    rw [hreg]
    simp only [hv, if_true]
    rw [hap]

/-- C5 witness: the concrete cross-epoch update applies successfully at
time 200 under the second-epoch protocol while revealing the commitment
computed with the first-epoch algorithm. -/
theorem claim_protocol_epoch_correctness_witness :
    aC.applyOperation m1 opU1 = { m1 with updateCommitment := "18:newuc" } := by
  have h := claim_protocol_epoch_correctness.2 aC prot1 m1 (some k0) 18 19 d1 dh1 200 m1.doc
    (by rfl) (by rfl) (by rfl) (by decide) (by rfl) (by rfl) (by decide) (by rfl)
    (by decide) (by rfl)
  exact h

end Sidetree
